import Mathlib

/-!
Shallow embedding of the ESDB (event-sourcing database) core from this
repository (source file src/unnamed/part_000, the `ESDB` class and its
built-in `metadata` model), together with theorems settling the claims
about its event pipeline.

Modelling conventions:
* JS objects used as string-keyed maps become association lists
  `List (String × α)`; JS `undefined` for an absent field becomes `none`.
* Asynchronous functions become pure functions; observable side effects
  (queue writes, `applyChanges` calls, emitted events, waiter
  resolutions, console logging) are recorded in an explicit action trace,
  and the mutable fields of the ESDB instance are threaded through an
  explicit `ESDBState`.
* A JS event version `v` is a `Nat`; an absent or `undefined` `v` is
  modelled as `0`, exactly matching the `!event.v` truthiness tests of
  the source.
-/

/-- Error values that can appear in the `error` map of an event.
`msg s` models an object `\x7bmessage: s\x7d` as built by the source;
`raw s` models an arbitrary error value returned by user code;
`nested m` models an error map stored as a value, as happens in
`ESDB.preprocessor` where a whole `newEvent.error` object is stored
under the preprocessor model name. -/
inductive EV where
  | msg (s : String)
  | raw (s : String)
  | nested (m : List (String × EV))

/-- Change descriptions as produced by reducers. `setVersion v` is the
payload `\x7bset: [\x7bid: "version", v\x7d]\x7d` produced by the built-in metadata
reducer; `emptyObj` is the bare `\x7b\x7d` it returns when no model is given;
`other` stands for an arbitrary user change description. -/
inductive Change where
  | setVersion (v : Nat)
  | emptyObj
  | other (tag : String)

/-- A composed reducer result for one model, as stored in the result map:
`change c` is a change description, `noChange` models the JS value
`false`, `ident` models the reducer returning the model object itself,
and `err e` models an object carrying an `error` field. -/
inductive ROut where
  | change (c : Change)
  | noChange
  | ident
  | err (e : EV)

/-- An ESDB event. `error = none` and `result = none` model absent
fields; `some []` models a present but empty object (which is truthy in
JS, like every object). -/
structure Event where
  v : Nat
  type : String
  data : String := ""
  error : Option (List (String × EV)) := none
  result : Option (List (String × ROut)) := none

/-- Lookup in an association list, modelling JS property access `o[k]`
(`none` models `undefined`). -/
def lookupKV {κ α : Type} [DecidableEq κ] (k : κ) : List (κ × α) → Option α
  | [] => none
  | (k', a) :: rest => if k' = k then some a else lookupKV k rest

/-- Removal of a key from an association list, modelling `delete o[k]`. -/
def eraseKV {κ α : Type} [DecidableEq κ] (k : κ) : List (κ × α) → List (κ × α)
  | [] => []
  | (k', a) :: rest => if k' = k then eraseKV k rest else (k', a) :: eraseKV k rest

/-- The truthiness test `r && ...` used in `ESDB.applyEvent` on result
entries: the JS value `false` (`noChange`) is falsy, every object is
truthy. -/
def ROut.truthy : ROut → Bool
  | ROut.noChange => false
  | _ => true

/-- The `error` field of a composed reducer result, modelling the JS
test `result[name].error`. -/
def ROut.errVal : ROut → Option EV
  | ROut.err e => some e
  | _ => none

/-- Whether a result entry is `false` or the model object itself, which
`ESDB.reducer` drops from the result as a no-change marker
(`r === false || r === this.store[name]`). -/
def ROut.isNoChangeOrIdent : ROut → Bool
  | ROut.noChange => true
  | ROut.ident => true
  | _ => false

/-- The built-in metadata reducer (src/unnamed/part_000 lines 267-283).
The outer `Option` is the `model` argument (`none` models a missing
model, where the reducer returns `\x7b\x7d`); the inner `Option Int` is the
stored version document: `model.get("version")` yields `none` when no
document exists, in which case `currV` is `-1`. The event argument is
destructured as `\x7bv = 0\x7d`, so only the version (with default 0) matters
and we pass it directly. -/
def metadataReducer (model : Option (Option Int)) (v : Nat) : ROut :=
  match model with
  | none => ROut.change Change.emptyObj
  | some currVDoc =>
    let currV : Int := match currVDoc with | some n => n | none => -1
    if (v : Int) > currV then ROut.change (Change.setVersion v)
    else ROut.err (EV.msg
      ("Current version " ++ toString currV ++ " is >= event version " ++ toString v))

/-- The mutable state of an `ESDB` instance that the claims are about.
`metaVersion` is the version document of the `metadata` store (`none`
when absent); `queue` maps a version to its queue row; `waitingFor` is
the waiter registry (waiters are identified by a `Nat` id, allocated
from `nextWaiterId`); `reduxState` is what `this.redux.getState()`
returns. -/
structure ESDBState where
  metaVersion : Option Nat
  queue : Nat → Option Event
  waitingFor : List (Nat × Nat)
  maxWaitingFor : Nat
  nextWaiterId : Nat
  hasErrorListener : Bool
  reduxState : Event

/-- ESDB.getVersion (src/unnamed/part_000 lines 456-464): reads the
metadata version document and returns `vObj ? vObj.v : 0`.  The
in-flight-promise memoisation is invisible in a sequential model. -/
def getVersionS (st : ESDBState) : Nat :=
  match st.metaVersion with
  | some n => n
  | none => 0

/-- Outcome of a `handledVersion` call: resolve with `undefined`
(`unit`), resolve with an event, reject with an event, reject with the
TypeError raised by reading `.error` of a missing queue row, or return
the promise of the waiter with the given id. -/
inductive HVOut where
  | unit
  | ok (e : Event)
  | rejected (e : Event)
  | typeErr
  | waiting (wid : Nat)

/-- ESDB.handledVersion (src/unnamed/part_000 lines 475-497).  Returns
the outcome, the new state, and whether `startPolling(v)` was called. -/
def handledVersion (st : ESDBState) (v : Nat) : HVOut × ESDBState × Bool :=
  if v = 0 then (HVOut.unit, st, false)
  else if v ≤ getVersionS st then
    match st.queue v with
    | none => (HVOut.typeErr, st, false)
    | some e =>
      if e.error.isSome then (HVOut.rejected e, st, false)
      else (HVOut.ok e, st, false)
  else
    match lookupKV v st.waitingFor with
    | some wid => (HVOut.waiting wid, st, false)
    | none =>
      let wid := st.nextWaiterId
      (HVOut.waiting wid,
       { st with
          waitingFor := st.waitingFor ++ [(v, wid)],
          maxWaitingFor := max st.maxWaitingFor v,
          nextWaiterId := wid + 1 },
       true)

/-- Observable waiter actions of `ESDB.triggerWaitingEvent`: resolving
or rejecting the waiter registered for the handled version, and, during
the residual sweep, resolving or rejecting a waiter with the event
fetched from the queue.  `sweepStuck` records the sweep hitting a
version with no queue row: `queue.get(v)` resolves `null`, the fetch
callback then throws reading `.error`, and the waiter never settles
(the rejection handler only covers a rejected `queue.get`). -/
inductive WAct where
  | resolve (wid : Nat) (e : Event)
  | reject (wid : Nat) (e : Event)
  | sweepResolve (wid : Nat) (e : Event)
  | sweepReject (wid : Nat) (e : Event)
  | sweepStuck (wid : Nat)

/-- ESDB.triggerWaitingEvent (src/unnamed/part_000 lines 499-524).
First the waiter for `event.v`, if any, is rejected (when `event.error`
is set) or resolved, and deleted.  Then, only when
`event.v >= this._maxWaitingFor`, every remaining waiter is swept: its
event is fetched from the queue and it is resolved or rejected by that
event, and it is deleted.  JS `Object.entries` iterates integer-like
keys in ascending order; the sweep order is irrelevant to the claims so
the registry list order is used. -/
def triggerWaitingEvent (st : ESDBState) (e : Event) : List WAct × ESDBState :=
  let step1 : List WAct × List (Nat × Nat) :=
    match lookupKV e.v st.waitingFor with
    | some wid =>
      ((if e.error.isSome then [WAct.reject wid e] else [WAct.resolve wid e]),
       eraseKV e.v st.waitingFor)
    | none => ([], st.waitingFor)
  if e.v ≥ st.maxWaitingFor then
    let sweep := step1.2.map (fun p =>
      match st.queue p.1 with
      | some ev => if ev.error.isSome then WAct.sweepReject p.2 ev else WAct.sweepResolve p.2 ev
      | none => WAct.sweepStuck p.2)
    (step1.1 ++ sweep, { st with waitingFor := [] })
  else
    (step1.1, { st with waitingFor := step1.2 })

/-- Observable actions of `ESDB.applyEvent`: the `queue.set` write, the
`applyChanges` call of each reducer model, the metadata `applyChanges`
call, each deriver invocation, and the SEVERE console log emitted by
the catch block outside the test environment. -/
inductive Act where
  | queueSet (e : Event)
  | applyChanges (name : String) (r : ROut)
  | applyMetadata (m : Option ROut)
  | deriver (name : String)
  | logSevere

/-- Injection point for a write failure inside `ESDB.applyEvent`: the
failing await is `queue.set`, the `Promise.all` of reducer
`applyChanges`, the metadata `applyChanges`, or the `Promise.all` of
the derivers. -/
inductive FailPoint where
  | atQueueSet
  | atApplyChanges
  | atMetadata
  | atDeriver
deriving DecidableEq

/-- Modelled from the spec: `JsonModel.applyChanges` is not under src;
per the spec (sections 4.5 and 6) applying the metadata change
`\x7bset: [\x7bid: "version", v\x7d]\x7d` writes the version document, advancing
the applied version; any other change description leaves the version
document alone. -/
def applyMetaChanges (st : ESDBState) (m : Option ROut) : ESDBState :=
  match m with
  | some (ROut.change (Change.setVersion v)) => { st with metaVersion := some v }
  | _ => st

/-- ESDB.applyEvent (src/unnamed/part_000 lines 646-695), with an
optional injected failure point.  Returns the action trace, the state
after the call (side effects performed before a failure persist), and
whether the call failed (the catch block logs SEVERE outside the test
environment and rethrows, so a failed call yields a rejected promise).
When `event.result` is absent the destructuring
`const \x7bmetadata\x7d = result` throws inside the try block, which is
likewise logged and rethrown. -/
def applyEvent (envTest : Bool) (fail : Option FailPoint) (deriverNames : List String)
    (st : ESDBState) (e : Event) : List Act × ESDBState × Bool :=
  let sevLog : List Act := if envTest then [] else [Act.logSevere]
  match e.result with
  | none => (sevLog, st, true)
  | some result =>
    let metadata := lookupKV "metadata" result
    let stripped := eraseKV "metadata" result
    let e' := { e with result := some stripped }
    let acts := [Act.queueSet e']
    if fail = some FailPoint.atQueueSet then (acts ++ sevLog, st, true)
    else
      let st1 := { st with queue := fun w => if w = e.v then some e' else st.queue w }
      let acts := acts ++
        (stripped.filter (fun p => p.2.truthy)).map (fun p => Act.applyChanges p.1 p.2)
      if fail = some FailPoint.atApplyChanges then (acts ++ sevLog, st1, true)
      else
        let acts := acts ++ [Act.applyMetadata metadata]
        if fail = some FailPoint.atMetadata then (acts ++ sevLog, st1, true)
        else
          let st2 := applyMetaChanges st1 metadata
          let acts := acts ++ deriverNames.map Act.deriver
          if fail = some FailPoint.atDeriver then (acts ++ sevLog, st2, true)
          else (acts, st2, false)

/-- Observable actions of `ESDB.handleResult`: the inner `applyEvent`
actions, the console log of its local catch handler, the emitted
`error` / `result` / `handled` events, and the waiter actions of
`triggerWaitingEvent`. -/
inductive HAct where
  | apply (a : Act)
  | logApplyError
  | emitError
  | emitResult
  | emitHandled
  | wact (w : WAct)

/-- ESDB.handleResult (src/unnamed/part_000 lines 626-644).  A missing
argument falls back to `this.redux.getState()`; an event with falsy `v`
returns immediately.  Otherwise `applyEvent` runs with its rejection
caught and logged, then `error` (only with a listener) or `result` is
emitted, then `handled`, then `triggerWaitingEvent` runs. -/
def handleResult (envTest : Bool) (fail : Option FailPoint) (deriverNames : List String)
    (st : ESDBState) (input : Option Event) : List HAct × ESDBState :=
  let event := match input with | some e => e | none => st.reduxState
  if event.v = 0 then ([], st)
  else
    let ap := applyEvent envTest fail deriverNames st event
    let applyTrace := ap.1.map HAct.apply ++ (if ap.2.2 then [HAct.logApplyError] else [])
    let emits :=
      if event.error.isSome then
        (if ap.2.1.hasErrorListener then [HAct.emitError] else [])
      else [HAct.emitResult]
    let trig := triggerWaitingEvent ap.2.1 event
    (applyTrace ++ emits ++ [HAct.emitHandled] ++ trig.1.map HAct.wact, trig.2)

/-- ESDB.preprocessor (src/unnamed/part_000 lines 358-408): runs the
registered preprocessors in order.  A preprocessor returning nothing
leaves the event untouched.  A returned event with an `error` field
short-circuits: that whole error object is attached under the
preprocessor model name on the incoming event (with its `v` and `type`
restored).  A returned event that changed `v`, or with an empty
(falsy) `type`, yields the incoming event with a synthesized
`_preprocess` error naming the model.  Otherwise the returned event
replaces the current one and the loop continues. -/
def preprocessorLoop (preprocs : List (String × (Event → Option Event)))
    (event : Event) : Event :=
  match preprocs with
  | [] => event
  | (name, f) :: rest =>
    match f event with
    | none => preprocessorLoop rest event
    | some newEvent =>
      match newEvent.error with
      | some errObj => { event with error := some [(name, EV.nested errObj)] }
      | none =>
        if newEvent.v ≠ event.v then
          let er := [("_preprocess", EV.msg (name ++ ": preprocessor must retain event version"))]
          { event with error := some er }
        else if newEvent.type = "" then
          let er := [("_preprocess", EV.msg (name ++ ": preprocessor must return event type"))]
          { event with error := some er }
        else preprocessorLoop rest newEvent

/-- Modelled from the spec: `combineReducers` comes from async-redux,
which is not under src.  Per the spec (section 4.4) it runs every
reducer and returns the map from model name to that reducer output,
where an output either is the returned change description (possibly
`false` or the model itself) or carries an `error` field when the
reducer rejected; errors do not short-circuit the other reducers. -/
def combineReducersRun (reducers : List (String × (Event → ROut))) (event : Event) :
    List (String × ROut) :=
  reducers.map (fun p => (p.1, p.2 event))

/-- ESDB.reducer (src/unnamed/part_000 lines 410-452), minus the
surrounding `db.withTransaction`, which adds no observable behaviour in
this sequential model.  `metaStored` is the version document of the
metadata store at reduction time (the metadata model itself is always
present in a constructed ESDB instance).  The composed reducers are
given by `reducers`; `reducerNames` of the source is their key list. -/
def esdbReducer (preprocs : List (String × (Event → Option Event)))
    (reducers : List (String × (Event → ROut)))
    (metaStored : Option Int) (event0 : Event) : Event :=
  let event := preprocessorLoop preprocs event0
  if event.error.isSome then
    { event with result := some [("metadata", metadataReducer (some metaStored) event.v)] }
  else
    let result := combineReducersRun reducers event
    let names := reducers.map (fun p => p.1)
    let hasError := names.any (fun n => ((lookupKV n result).bind ROut.errVal).isSome)
    if hasError then
      let error := names.filterMap (fun n =>
        ((lookupKV n result).bind ROut.errVal).map (fun e => (n, e)))
      { event with
        result := some (match lookupKV "metadata" result with
          | some m => [("metadata", m)]
          | none => []),
        error := some error }
    else
      { event with result := some (result.filter (fun p => !p.2.isNoChangeOrIdent)) }

/-- Modelled from the spec: `EventQueue.getNext` is not under src; per
the spec (sections 4.5 and 6) it returns the next event, the one with
`v = afterV + 1`, or null when none is pending. -/
def getNextS (queue : Nat → Option Event) (afterV : Nat) : Option Event :=
  queue (afterV + 1)

/-- One step of the promise chain built by `ESDB.startPolling`. -/
inductive ChainStep where
  | runLoop
  | clearP
deriving DecidableEq

/-- The promise chain that `ESDB.startPolling` installs as
`this._waitingP` (src/unnamed/part_000 lines 598-613): one
`_waitForEvent` run, whose rejection the catch maps to 0, followed by
the continuation `v => \x7bif (this.minVersion > v) return
this._waitForEvent(); this._waitingP = null\x7d`.  `minV` is the value of
`this.minVersion` when the first run settles, `v1` the (post-catch)
value the first run settled with.  When `minV > v1` the continuation
returns a second `_waitForEvent` run; that second run resolves the
chain directly, so the chain neither re-checks `minVersion` nor clears
`_waitingP` after it. -/
def pollChainTrace (minV v1 : Nat) : List ChainStep :=
  ChainStep.runLoop ::
    (if minV > v1 then [ChainStep.runLoop] else [ChainStep.clearP])

/-- Scan of an `applyEvent` action trace: `true` when no deriver call
occurs strictly before the first metadata `applyChanges` call. -/
def noDeriverBeforeMeta : List Act → Bool
  | [] => true
  | Act.applyMetadata _ :: _ => true
  | Act.deriver _ :: _ => false
  | _ :: rest => noDeriverBeforeMeta rest

/-- Ordering and effect description of a successful `applyEvent` call on
an event whose result map is `res`: the trace is exactly the `queue.set`
of the metadata-stripped event, then the `applyChanges` of every
remaining truthy result entry, then the metadata `applyChanges`, then
the derivers; the stripped result has no metadata entry; the queue row
for `event.v` holds the stripped event; a metadata set-version change
advances the stored version; and no deriver action precedes the
metadata action. -/
def applyEventOrderedP (envTest : Bool) (dns : List String) (st : ESDBState)
    (e : Event) (res : List (String × ROut)) : Prop :=
  applyEvent envTest none dns st e =
    (Act.queueSet { e with result := some (eraseKV "metadata" res) } ::
      ((((eraseKV "metadata" res).filter (fun p => p.2.truthy)).map
          (fun p => Act.applyChanges p.1 p.2))
        ++ Act.applyMetadata (lookupKV "metadata" res) :: dns.map Act.deriver),
     applyMetaChanges
       { st with queue := fun w =>
           if w = e.v then some { e with result := some (eraseKV "metadata" res) }
           else st.queue w }
       (lookupKV "metadata" res),
     false)
  ∧ lookupKV "metadata" (eraseKV "metadata" res) = none
  ∧ (applyEvent envTest none dns st e).2.1.queue e.v =
      some { e with result := some (eraseKV "metadata" res) }
  ∧ (∀ vv, lookupKV "metadata" res = some (ROut.change (Change.setVersion vv)) →
      (applyEvent envTest none dns st e).2.1.metaVersion = some vv)
  ∧ noDeriverBeforeMeta (applyEvent envTest none dns st e).1 = true

/-- Behaviour of `applyEvent` under an injected write failure `fp` and
of the enclosing `handleResult` call: the call fails (the error is
rethrown) after logging SEVERE; a failure in `queue.set` leaves the
queue untouched (the event stays un-acked); any failure before the
deriver phase leaves the applied version unchanged, so the next
`getNext(getVersion())` poll returns the event with version `event.v`
again; and `handleResult` nevertheless catches the rejection, logs it,
emits `handled` and still triggers the waiter for `event.v` (the waiter
registry ends up without an entry for `event.v`). -/
def applyFailureAmendedP (dns : List String) (st : ESDBState) (e : Event)
    (fp : FailPoint) : Prop :=
  (applyEvent false (some fp) dns st e).2.2 = true
  ∧ Act.logSevere ∈ (applyEvent false (some fp) dns st e).1
  ∧ (fp = FailPoint.atQueueSet → (applyEvent false (some fp) dns st e).2.1.queue = st.queue)
  ∧ (fp ≠ FailPoint.atDeriver →
      (applyEvent false (some fp) dns st e).2.1.metaVersion = st.metaVersion)
  ∧ (fp ≠ FailPoint.atDeriver → e.v = getVersionS st + 1 →
      (st.queue e.v).map Event.v = some e.v →
      (getNextS (applyEvent false (some fp) dns st e).2.1.queue
          (getVersionS (applyEvent false (some fp) dns st e).2.1)).map Event.v = some e.v)
  ∧ HAct.logApplyError ∈ (handleResult false (some fp) dns st (some e)).1
  ∧ HAct.emitHandled ∈ (handleResult false (some fp) dns st (some e)).1
  ∧ lookupKV e.v (handleResult false (some fp) dns st (some e)).2.waitingFor = none

/-- Behaviour of `triggerWaitingEvent`: the waiter registered for
`event.v`, if any, is rejected when `event.error` is set and resolved
otherwise, and removed; when `event.v` is at least `_maxWaitingFor`
every residual waiter is swept (resolved or rejected according to the
event fetched from the queue) and the registry empties; when `event.v`
is below `_maxWaitingFor` no sweep happens: the other waiters stay
registered and at most the one direct waiter action is performed. -/
def triggerAmendedP (st : ESDBState) (e : Event) : Prop :=
  (∀ wid, lookupKV e.v st.waitingFor = some wid →
      (e.error.isSome = true →
        ((triggerWaitingEvent st e).1).head? = some (WAct.reject wid e))
      ∧ (e.error = none →
        ((triggerWaitingEvent st e).1).head? = some (WAct.resolve wid e))
      ∧ lookupKV e.v (triggerWaitingEvent st e).2.waitingFor = none)
  ∧ (st.maxWaitingFor ≤ e.v →
      (triggerWaitingEvent st e).2.waitingFor = []
      ∧ ∀ p ∈ eraseKV e.v st.waitingFor,
          (match st.queue p.1 with
           | some ev =>
             if ev.error.isSome then WAct.sweepReject p.2 ev else WAct.sweepResolve p.2 ev
           | none => WAct.sweepStuck p.2) ∈ (triggerWaitingEvent st e).1)
  ∧ (e.v < st.maxWaitingFor →
      (triggerWaitingEvent st e).2.waitingFor = eraseKV e.v st.waitingFor
      ∧ (triggerWaitingEvent st e).1.length ≤ 1)

/-- Error-path description of `ESDB.reducer` when some composed reducer
errored: the returned event has an error map holding exactly the
errored model names with their errors, and its result map holds nothing
but the metadata entry. -/
def reducerErrorP (preprocs : List (String × (Event → Option Event)))
    (reducers : List (String × (Event → ROut)))
    (metaStored : Option Int) (event0 : Event) : Prop :=
  let res := combineReducersRun reducers (preprocessorLoop preprocs event0)
  let out := esdbReducer preprocs reducers metaStored event0
  out.error.isSome = true
  ∧ (∀ n, lookupKV n (out.error.getD []) = (lookupKV n res).bind ROut.errVal)
  ∧ (∀ q ∈ out.result.getD [], q.1 = "metadata")
  ∧ (∀ m, lookupKV "metadata" res = some m → out.result = some [("metadata", m)])

/-- A trivial event used as the redux state of sample instances. -/
def ev0 : Event := { v := 0, type := "" }

/-- A pristine sample ESDB state. -/
def st0 : ESDBState :=
  { metaVersion := none, queue := fun _ => none, waitingFor := [],
    maxWaitingFor := 0, nextWaiterId := 0, hasErrorListener := false, reduxState := ev0 }

/-- Sample result map with one user change and the metadata change. -/
def resC1 : List (String × ROut) :=
  [("a", ROut.change (Change.other "x")), ("metadata", ROut.change (Change.setVersion 1))]

/-- Sample reduced event carrying `resC1`. -/
def eC1 : Event := { v := 1, type := "t", result := some resC1 }

/-- Sample state with a registered waiter for version 1. -/
def stC4 : ESDBState :=
  { metaVersion := some 0, queue := fun _ => none, waitingFor := [(1, 11)],
    maxWaitingFor := 1, nextWaiterId := 12, hasErrorListener := false, reduxState := ev0 }

/-- Sample reduced event for version 1 with an empty result map. -/
def eC4 : Event := { v := 1, type := "t", result := some [] }

/-- Sample state whose queue holds a row for version 1 and which has a
registered waiter for version 1. -/
def stC4w : ESDBState :=
  { metaVersion := some 0, queue := fun n => if n = 1 then some eC4 else none,
    waitingFor := [(1, 11)], maxWaitingFor := 1, nextWaiterId := 12,
    hasErrorListener := false, reduxState := ev0 }

/-- Sample reducer table: model `a` errors, the metadata reducer
advances to version 1. -/
def redC5 : List (String × (Event → ROut)) :=
  [("a", fun _ => ROut.err (EV.raw "boom")),
   ("metadata", fun _ => ROut.change (Change.setVersion 1))]

/-- Sample incoming event for the reducer pipeline. -/
def eC5 : Event := { v := 1, type := "t" }

/-- Sample incoming event for the preprocessor. -/
def eC6 : Event := { v := 1, type := "t" }

/-- Sample preprocessor output carrying an error field. -/
def neC6 : Event := { v := 1, type := "t", error := some [("x", EV.raw "bad")] }

/-- Sample preprocessor returning `neC6`. -/
def fC6 : Event → Option Event := fun _ => some neC6

/-- Sample state with waiters for versions 2 and 5 and high-water mark
5: handling version 3 matches no waiter and triggers no sweep. -/
def stC7 : ESDBState :=
  { metaVersion := some 0, queue := fun _ => none, waitingFor := [(2, 20), (5, 50)],
    maxWaitingFor := 5, nextWaiterId := 60, hasErrorListener := false, reduxState := ev0 }

/-- Sample handled event of version 3. -/
def eC7 : Event := { v := 3, type := "t" }

/-- Sample state with one waiter for version 1 at high-water mark 1. -/
def stC7w : ESDBState :=
  { metaVersion := some 0, queue := fun _ => none, waitingFor := [(1, 7)],
    maxWaitingFor := 1, nextWaiterId := 8, hasErrorListener := false, reduxState := ev0 }

/-- Sample handled event of version 1. -/
def eC7w : Event := { v := 1, type := "t" }

/-- Sample state whose applied version is 3 while its queue is empty. -/
def stC9 : ESDBState :=
  { metaVersion := some 3, queue := fun _ => none, waitingFor := [],
    maxWaitingFor := 0, nextWaiterId := 0, hasErrorListener := false, reduxState := ev0 }

/-- Sample event whose version field is falsy. -/
def eC10 : Event := { v := 0, type := "t" }

/-- Erasing a key makes its lookup fail. -/
lemma lookupKV_eraseKV_self {κ α : Type} [DecidableEq κ] (k : κ) (l : List (κ × α)) :
    lookupKV k (eraseKV k l) = none := by
  induction l with
  | nil => rfl
  | cons p rest ih =>
    obtain ⟨k', a⟩ := p
    by_cases h : k' = k
    · simp [eraseKV, h, ih]
    · simp [eraseKV, lookupKV, h, ih]

/-- Erasure only drops entries. -/
lemma mem_of_mem_eraseKV {κ α : Type} [DecidableEq κ] (k : κ) (l : List (κ × α))
    (p : κ × α) (h : p ∈ eraseKV k l) : p ∈ l := by
  induction l with
  | nil => simp [eraseKV] at h
  | cons q rest ih =>
    obtain ⟨k', a⟩ := q
    by_cases hk : k' = k
    · simp only [eraseKV, if_pos hk] at h
      exact List.mem_cons_of_mem _ (ih h)
    · simp only [eraseKV, if_neg hk, List.mem_cons] at h
      rcases h with h | h
      · exact h ▸ List.mem_cons_self _ _
      · exact List.mem_cons_of_mem _ (ih h)

/-- Lookup fails for a key absent from the key list. -/
lemma lookupKV_eq_none_of_not_mem {α : Type} (n : String) (l : List (String × α))
    (h : n ∉ l.map Prod.fst) : lookupKV n l = none := by
  induction l with
  | nil => rfl
  | cons p rest ih =>
    obtain ⟨k, a⟩ := p
    simp only [List.map_cons, List.mem_cons, not_or] at h
    have hk : ¬ k = n := fun he => h.1 he.symm
    simp [lookupKV, hk, ih h.2]

/-- Lookup in the composed reducer result is the lookup of the reducer
applied to the event. -/
lemma lookupKV_combine (reducers : List (String × (Event → ROut))) (ev : Event) (n : String) :
    lookupKV n (combineReducersRun reducers ev) =
      (lookupKV n reducers).map (fun f => f ev) := by
  induction reducers with
  | nil => rfl
  | cons p rest ih =>
    obtain ⟨k, f⟩ := p
    have ih' : lookupKV n (List.map (fun p => (p.1, p.2 ev)) rest) =
        Option.map (fun f => f ev) (lookupKV n rest) := by
      simpa [combineReducersRun] using ih
    by_cases h : k = n <;> simp [combineReducersRun, lookupKV, h, ih']

/-- Key list of the composed reducer result. -/
lemma keys_combine (reducers : List (String × (Event → ROut))) (ev : Event) :
    (combineReducersRun reducers ev).map Prod.fst = reducers.map Prod.fst := by
  induction reducers with
  | nil => rfl
  | cons p rest ih => simp [combineReducersRun, ih]

/-- Lookup in a map built by filtering a nodup key list through an
optional-value function. -/
lemma lookupKV_filterMap_keys {α : Type} (g : String → Option α) (names : List String)
    (hnd : names.Nodup) (n : String) :
    lookupKV n (names.filterMap (fun m => (g m).map (fun e => (m, e)))) =
      if n ∈ names then g n else none := by
  induction names with
  | nil => simp [lookupKV]
  | cons m ms ih =>
    have hm : m ∉ ms := (List.nodup_cons.mp hnd).1
    have hnd' : ms.Nodup := (List.nodup_cons.mp hnd).2
    cases hg : g m with
    | none =>
      rw [List.filterMap_cons]
      simp only [hg, Option.map_none']
      rw [ih hnd']
      by_cases hnm : n = m
      · subst hnm
        simp [hm, hg]
      · simp [hnm]
    | some e =>
      rw [List.filterMap_cons]
      simp only [hg, Option.map_some']
      by_cases hnm : m = n
      · subst hnm
        simp [lookupKV, hg]
      · have hn : ¬ n = m := fun h => hnm h.symm
        simp [lookupKV, hnm, hn, ih hnd']

/-- The waiter for the handled version is never registered after
`triggerWaitingEvent`. -/
lemma trigger_lookup_self (st : ESDBState) (e : Event) :
    lookupKV e.v (triggerWaitingEvent st e).2.waitingFor = none := by
  unfold triggerWaitingEvent
  cases hw : lookupKV e.v st.waitingFor with
  | none =>
    by_cases hge : e.v ≥ st.maxWaitingFor <;>
      simp [hge, hw, lookupKV, lookupKV_eraseKV_self]
  | some wid =>
    by_cases hge : e.v ≥ st.maxWaitingFor <;>
      simp [hge, hw, lookupKV, lookupKV_eraseKV_self]

/-- The state after `applyMetaChanges` has the same queue. -/
lemma applyMetaChanges_queue (st : ESDBState) (m : Option ROut) :
    (applyMetaChanges st m).queue = st.queue := by
  unfold applyMetaChanges
  rcases m with _ | r
  · rfl
  · rcases r with c | _ | _ | _
    · rcases c with v | _ | t <;> rfl
    · rfl
    · rfl
    · rfl

/-- An applyChanges prefix keeps a trace free of derivers before the
metadata action. -/
lemma noDeriverBeforeMeta_map_changes (ps : List (String × ROut)) (m : Option ROut)
    (rest : List Act) :
    noDeriverBeforeMeta
      ((ps.map (fun p => Act.applyChanges p.1 p.2)) ++ Act.applyMetadata m :: rest) = true := by
  induction ps with
  | nil => rfl
  | cons a as ih => simpa [noDeriverBeforeMeta] using ih

/-- C3: for every event version v and stored metadata version cur, the
built-in metadata reducer returns the set-version change exactly when
v > cur, and otherwise an error whose message is
"Current version cur is >= event version v". -/
theorem C3_metadataReducer_set_iff (v : Nat) (cur : Int) :
    ((metadataReducer (some (some cur)) v = ROut.change (Change.setVersion v)) ↔ (v : Int) > cur)
    ∧ (¬ (v : Int) > cur →
        metadataReducer (some (some cur)) v =
          ROut.err (EV.msg ("Current version " ++ toString cur ++
            " is >= event version " ++ toString v))) := by
  unfold metadataReducer
  constructor
  · constructor
    · intro h
      by_contra hc
      simp [hc] at h
    · intro h
      simp [h]
  · intro h
    simp [h]

/-- Witness for C3 at event version 1 against stored version 5. -/
theorem C3_metadataReducer_set_iff_witness :
    ¬ ((1 : Nat) : Int) > (5 : Int) ∧
      metadataReducer (some (some 5)) 1 =
        ROut.err (EV.msg ("Current version " ++ toString (5 : Int) ++
          " is >= event version " ++ toString (1 : Nat))) :=
  ⟨by decide, (C3_metadataReducer_set_iff 1 5).2 (by decide)⟩

/-- C9: when 0 < v and v is at most the applied version but the queue
has no row for v, handledVersion hits the TypeError of reading `.error`
on null and neither resolves nor rejects with an event; the queue
holding every version up to the applied version is thus a precondition. -/
theorem C9_handledVersion_missing_row (st : ESDBState) (v : Nat)
    (h0 : 0 < v) (hle : v ≤ getVersionS st) (hq : st.queue v = none) :
    (handledVersion st v).1 = HVOut.typeErr
    ∧ (∀ e, (handledVersion st v).1 ≠ HVOut.ok e)
    ∧ (∀ e, (handledVersion st v).1 ≠ HVOut.rejected e) := by
  have hv0 : ¬ v = 0 := by omega
  unfold handledVersion
  simp [hv0, hle, hq]

/-- Witness for C9: applied version 3 with an empty queue at v = 2. -/
theorem C9_handledVersion_missing_row_witness :
    0 < 2 ∧ 2 ≤ getVersionS stC9 ∧ stC9.queue 2 = none ∧
      ((handledVersion stC9 2).1 = HVOut.typeErr
        ∧ (∀ e, (handledVersion stC9 2).1 ≠ HVOut.ok e)
        ∧ (∀ e, (handledVersion stC9 2).1 ≠ HVOut.rejected e)) :=
  ⟨by decide, by decide, rfl, C9_handledVersion_missing_row stC9 2 (by decide) (by decide) rfl⟩

/-- C10: handleResult on an event whose v is falsy returns at once:
no applyEvent call, no emitted result, error or handled, no waiter
action, and the state is untouched. -/
theorem C10_handleResult_falsy_v (envTest : Bool) (fail : Option FailPoint)
    (dns : List String) (st : ESDBState) (e : Event) (hv : e.v = 0) :
    handleResult envTest fail dns st (some e) = ([], st) := by
  unfold handleResult
  simp [hv]

/-- Witness for C10 on a version-0 event. -/
theorem C10_handleResult_falsy_v_witness :
    eC10.v = 0 ∧ handleResult true none [] st0 (some eC10) = ([], st0) :=
  ⟨rfl, C10_handleResult_falsy_v true none [] st0 eC10 rfl⟩

/-- C2: handledVersion resolves immediately at v = 0; for
0 < v at most the applied version it fetches the queue row and rejects
with the event exactly when its error is set, resolving with it
otherwise; for v beyond the applied version it returns the promise of
the waiter keyed by v, reusing a registered waiter unchanged, and on
first registration records the waiter, raises _maxWaitingFor to v and
calls startPolling(v). -/
theorem C2_handledVersion_cases (st : ESDBState) (v : Nat) :
    (v = 0 → handledVersion st v = (HVOut.unit, st, false))
    ∧ (v ≠ 0 → v ≤ getVersionS st → ∀ e, st.queue v = some e →
        handledVersion st v =
          ((if e.error.isSome then HVOut.rejected e else HVOut.ok e), st, false))
    ∧ (v ≠ 0 → getVersionS st < v →
        ((∀ wid, lookupKV v st.waitingFor = some wid →
            handledVersion st v = (HVOut.waiting wid, st, false))
         ∧ (lookupKV v st.waitingFor = none →
            handledVersion st v =
              (HVOut.waiting st.nextWaiterId,
               { st with
                  waitingFor := st.waitingFor ++ [(v, st.nextWaiterId)],
                  maxWaitingFor := max st.maxWaitingFor v,
                  nextWaiterId := st.nextWaiterId + 1 },
               true)))) := by
  refine ⟨?_, ?_, ?_⟩
  · intro h
    unfold handledVersion
    simp [h]
  · intro h hle e he
    unfold handledVersion
    simp only [h, if_false, if_pos hle, he]
    split <;> simp_all
  · intro h hlt
    have hnle : ¬ v ≤ getVersionS st := by omega
    constructor
    · intro wid hw
      unfold handledVersion
      simp [h, hnle, hw]
    · intro hw
      unfold handledVersion
      simp [h, hnle, hw]

/-- Witness for C2: registering a fresh waiter for version 2 on the
pristine state. -/
theorem C2_handledVersion_cases_witness :
    (2 : Nat) ≠ 0 ∧ getVersionS st0 < 2 ∧ lookupKV 2 st0.waitingFor = none ∧
      handledVersion st0 2 =
        (HVOut.waiting st0.nextWaiterId,
         { st0 with
            waitingFor := st0.waitingFor ++ [(2, st0.nextWaiterId)],
            maxWaitingFor := max st0.maxWaitingFor 2,
            nextWaiterId := st0.nextWaiterId + 1 },
         true) :=
  ⟨by decide, by decide, rfl,
    ((C2_handledVersion_cases st0 2).2.2 (by decide) (by decide)).2 rfl⟩

/-- C8 counterexample: a polling chain whose first run returns 0 while
minVersion is 10 starts exactly one re-run; the chain contains two loop
runs and never clears _waitingP, so when the second run also ends below
minVersion no further run is started, contrary to the claim that every
return below minVersion triggers another run. -/
theorem C8_pollChain_counterexample :
    pollChainTrace 10 0 = [ChainStep.runLoop, ChainStep.runLoop]
    ∧ ChainStep.clearP ∉ pollChainTrace 10 0 := by
  constructor
  · rfl
  · decide

/-- C8 amended: only the first completion of the loop in a polling
chain is checked: if minVersion exceeds the returned version exactly
one more run starts and _waitingP is never cleared by that chain;
otherwise _waitingP is cleared and no re-run starts. -/
theorem C8_pollChain_amended (minV v1 : Nat) :
    (minV > v1 →
        pollChainTrace minV v1 = [ChainStep.runLoop, ChainStep.runLoop]
        ∧ ChainStep.clearP ∉ pollChainTrace minV v1)
    ∧ (minV ≤ v1 → pollChainTrace minV v1 = [ChainStep.runLoop, ChainStep.clearP]) := by
  constructor
  · intro h
    unfold pollChainTrace
    simp [h]
  · intro h
    have hn : ¬ minV > v1 := by omega
    unfold pollChainTrace
    simp [hn]

/-- Witness for the amended C8 with minVersion 5 and first return 0. -/
theorem C8_pollChain_amended_witness :
    5 > 0 ∧
      (pollChainTrace 5 0 = [ChainStep.runLoop, ChainStep.runLoop]
        ∧ ChainStep.clearP ∉ pollChainTrace 5 0) :=
  ⟨by decide, (C8_pollChain_amended 5 0).1 (by decide)⟩

/-- Erasing a key absent from the list is the identity. -/
lemma eraseKV_eq_self_of_lookup_none {κ α : Type} [DecidableEq κ] (k : κ)
    (l : List (κ × α)) (h : lookupKV k l = none) : eraseKV k l = l := by
  induction l with
  | nil => rfl
  | cons p rest ih =>
    obtain ⟨k', a⟩ := p
    by_cases hk : k' = k
    · simp [lookupKV, hk] at h
    · simp only [lookupKV, if_neg hk] at h
      simp [eraseKV, hk, ih h]

/-- C1: a successful applyEvent first strips the metadata entry from
the result, then persists the stripped event through queue.set onto the
queue row for event.v, then applies every remaining truthy result
entry through applyChanges, then applies the metadata change (advancing
the stored version), and runs the derivers only after that; no deriver
action precedes the metadata action. -/
theorem C1_applyEvent_order (envTest : Bool) (dns : List String) (st : ESDBState)
    (e : Event) (res : List (String × ROut)) (h : e.result = some res) :
    applyEventOrderedP envTest dns st e res := by
  have happ : applyEvent envTest none dns st e =
      (Act.queueSet { e with result := some (eraseKV "metadata" res) } ::
        ((((eraseKV "metadata" res).filter (fun p => p.2.truthy)).map
            (fun p => Act.applyChanges p.1 p.2))
          ++ Act.applyMetadata (lookupKV "metadata" res) :: dns.map Act.deriver),
       applyMetaChanges
         { st with queue := fun w =>
             if w = e.v then some { e with result := some (eraseKV "metadata" res) }
             else st.queue w }
         (lookupKV "metadata" res),
       false) := by
    unfold applyEvent
    rw [h]
    simp
  refine ⟨happ, lookupKV_eraseKV_self _ _, ?_, ?_, ?_⟩
  · rw [happ]
    simp [applyMetaChanges_queue]
  · intro vv hm
    rw [happ]
    simp [hm, applyMetaChanges]
  · rw [happ]
    have hpre := noDeriverBeforeMeta_map_changes
      ((eraseKV "metadata" res).filter (fun p => p.2.truthy))
      (lookupKV "metadata" res) (dns.map Act.deriver)
    simpa [noDeriverBeforeMeta] using hpre

/-- Witness for C1 on a two-entry result map. -/
theorem C1_applyEvent_order_witness :
    eC1.result = some resC1 ∧ applyEventOrderedP true ["d"] st0 eC1 resC1 :=
  ⟨rfl, C1_applyEvent_order true ["d"] st0 eC1 resC1 rfl⟩

/-- C6: a preprocessor returning an event with an error field
short-circuits with the error attached under its model name; one that
changes event.v or returns an empty type yields the incoming event with
a synthesized _preprocess error naming the model; and whenever
preprocessing left an error on the event, the reducer runs only the
metadata reducer and returns the event with result containing just the
metadata entry, keeping the error. -/
theorem C6_preprocess_error_paths (name : String) (f : Event → Option Event)
    (rest : List (String × (Event → Option Event)))
    (e ne : Event) (hf : f e = some ne) :
    (∀ errObj, ne.error = some errObj →
        preprocessorLoop ((name, f) :: rest) e =
          { e with error := some [(name, EV.nested errObj)] })
    ∧ (ne.error = none → ne.v ≠ e.v →
        preprocessorLoop ((name, f) :: rest) e =
          { e with error := some [("_preprocess", EV.msg (name ++ ": preprocessor must retain event version"))] })
    ∧ (ne.error = none → ne.v = e.v → ne.type = "" →
        preprocessorLoop ((name, f) :: rest) e =
          { e with error := some [("_preprocess", EV.msg (name ++ ": preprocessor must return event type"))] })
    ∧ (∀ (preprocs : List (String × (Event → Option Event)))
         (reducers : List (String × (Event → ROut)))
         (metaStored : Option Int) (ev0 : Event),
        (preprocessorLoop preprocs ev0).error.isSome = true →
        esdbReducer preprocs reducers metaStored ev0 =
          { preprocessorLoop preprocs ev0 with
              result := some [("metadata", metadataReducer (some metaStored) (preprocessorLoop preprocs ev0).v)] }) := by
  refine ⟨?_, ?_, ?_, ?_⟩
  · intro errObj he
    unfold preprocessorLoop
    simp [hf, he]
  · intro he hv
    unfold preprocessorLoop
    simp [hf, he, hv]
  · intro he hv ht
    unfold preprocessorLoop
    simp [hf, he, hv, ht]
  · intro preprocs reducers metaStored ev0 herr
    unfold esdbReducer
    simp [herr]

/-- Witness for C6: a preprocessor whose returned event carries an
error field. -/
theorem C6_preprocess_error_paths_witness :
    fC6 eC6 = some neC6 ∧ neC6.error = some [("x", EV.raw "bad")] ∧
      preprocessorLoop [("m", fC6)] eC6 =
        { eC6 with error := some [("m", EV.nested [("x", EV.raw "bad")])] } :=
  ⟨rfl, rfl, (C6_preprocess_error_paths "m" fC6 [] eC6 neC6 rfl).1 _ rfl⟩

/-- C7 counterexample: with waiters registered for versions 2 and 5
(so _maxWaitingFor is 5), handling version 3 performs no waiter action
and leaves both waiters registered, although the claim requires the
residual waiter for version 2, which is at most 3, to be swept. -/
theorem C7_triggerWaitingEvent_counterexample :
    (triggerWaitingEvent stC7 eC7).1 = []
    ∧ (triggerWaitingEvent stC7 eC7).2.waitingFor = [(2, 20), (5, 50)] :=
  ⟨rfl, rfl⟩

/-- C7 amended: the waiter for event.v, if registered, is rejected when
event.error is set and resolved otherwise and is removed; the residual
sweep happens only when event.v is at least _maxWaitingFor, and then
every remaining waiter is resolved or rejected according to the event
fetched from the queue and the registry empties; when event.v is below
_maxWaitingFor no sweep happens and the other waiters stay registered. -/
theorem C7_triggerWaitingEvent_amended (st : ESDBState) (e : Event) :
    triggerAmendedP st e := by
  unfold triggerAmendedP
  refine ⟨?_, ?_, ?_⟩
  · intro wid hw
    refine ⟨?_, ?_, trigger_lookup_self st e⟩
    · intro herr
      unfold triggerWaitingEvent
      by_cases hge : e.v ≥ st.maxWaitingFor <;> simp [hw, herr, hge]
    · intro herr
      unfold triggerWaitingEvent
      by_cases hge : e.v ≥ st.maxWaitingFor <;> simp [hw, herr, hge]
  · intro hge
    have hge' : e.v ≥ st.maxWaitingFor := hge
    constructor
    · unfold triggerWaitingEvent
      cases hw : lookupKV e.v st.waitingFor <;> simp [hge', hw]
    · intro p hp
      unfold triggerWaitingEvent
      cases hw : lookupKV e.v st.waitingFor with
      | none =>
        have hp' : p ∈ st.waitingFor := mem_of_mem_eraseKV _ _ _ hp
        simp only [hw, hge', ge_iff_le, if_pos hge']
        simp only [List.nil_append]
        exact List.mem_map_of_mem _ hp'
      | some wid =>
        simp only [hw, hge', ge_iff_le, if_pos hge']
        refine List.mem_append_right _ ?_
        exact List.mem_map_of_mem _ hp
  · intro hlt
    have hnge : ¬ e.v ≥ st.maxWaitingFor := by omega
    constructor
    · unfold triggerWaitingEvent
      cases hw : lookupKV e.v st.waitingFor with
      | none => simp [hnge, hw, eraseKV_eq_self_of_lookup_none e.v st.waitingFor hw]
      | some wid => simp [hnge, hw]
    · unfold triggerWaitingEvent
      cases hw : lookupKV e.v st.waitingFor with
      | none => simp [hnge, hw]
      | some wid =>
        by_cases herr : e.error.isSome <;> simp [hnge, hw, herr]

/-- Witness for the amended C7: a registered waiter for version 1 at
high-water mark 1. -/
theorem C7_triggerWaitingEvent_amended_witness :
    lookupKV eC7w.v stC7w.waitingFor = some 7 ∧ triggerAmendedP stC7w eC7w :=
  ⟨rfl, C7_triggerWaitingEvent_amended stC7w eC7w⟩

/-- C4 counterexample: with a waiter registered for version 1, a
queue.set failure while applying event 1 is caught by handleResult,
which still emits result and handled and resolves the waiter in the
same cycle, contrary to the claim that no waiter is resolved as handled
until a later successful apply. -/
theorem C4_handleResult_counterexample :
    (handleResult false (some FailPoint.atQueueSet) [] stC4 (some eC4)).1 =
      [HAct.apply (Act.queueSet eC4), HAct.apply Act.logSevere, HAct.logApplyError,
       HAct.emitResult, HAct.emitHandled, HAct.wact (WAct.resolve 11 eC4)]
    ∧ (handleResult false (some FailPoint.atQueueSet) [] stC4 (some eC4)).2.waitingFor = [] :=
  ⟨rfl, rfl⟩

/-- C4 amended: a write failure inside applyEvent is logged as severe
(outside the test environment) and the call fails (the error is
rethrown); a failure in queue.set leaves the event un-acked in the
queue; a failure before the deriver phase leaves the applied version
unchanged, so the next poll fetches the event with version event.v
again; but handleResult catches the rejection, logs it and still emits
handled and triggers the waiter for event.v in the same cycle. -/
theorem C4_applyEvent_failure_amended (dns : List String) (st : ESDBState)
    (e : Event) (fp : FailPoint) (hv : e.v ≠ 0) :
    applyFailureAmendedP dns st e fp := by
  unfold applyFailureAmendedP
  refine ⟨?_, ?_, ?_, ?_, ?_, ?_, ?_, ?_⟩
  · cases fp <;> cases hres : e.result <;> simp [applyEvent, hres]
  · cases fp <;> cases hres : e.result <;> simp [applyEvent, hres]
  · intro hfp
    subst hfp
    cases hres : e.result <;> simp [applyEvent, hres]
  · intro hfp
    cases fp <;> cases hres : e.result <;>
      simp_all [applyEvent, applyMetaChanges_queue]
  · intro hfp hev hq
    cases fp <;> cases hres : e.result <;>
      simp_all [applyEvent, getNextS, getVersionS]
  · cases fp <;> cases hres : e.result <;>
      simp [handleResult, applyEvent, hres, hv, List.mem_append]
  · cases fp <;> cases hres : e.result <;>
      simp [handleResult, applyEvent, hres, hv, List.mem_append]
  · unfold handleResult
    simp only [hv, if_false]
    exact trigger_lookup_self _ _

/-- Witness for the amended C4: queue.set fails while applying event 1
on a state whose queue holds the row for version 1 and which has a
waiter registered for version 1. -/
theorem C4_applyEvent_failure_amended_witness :
    eC4.v ≠ 0 ∧ applyFailureAmendedP [] stC4w eC4 FailPoint.atQueueSet :=
  ⟨by decide, C4_applyEvent_failure_amended [] stC4w eC4 FailPoint.atQueueSet (by decide)⟩

/-- C5: when some composed reducer errored on the preprocessed event,
ESDB.reducer returns the event with an error map holding exactly the
errored model names with their errors, and a result map holding
nothing but the metadata entry: every other reducer change is
discarded. -/
theorem C5_reducer_error_collection
    (preprocs : List (String × (Event → Option Event)))
    (reducers : List (String × (Event → ROut)))
    (metaStored : Option Int) (event0 : Event)
    (hnd : (reducers.map (fun p => p.1)).Nodup)
    (hpre : (preprocessorLoop preprocs event0).error = none)
    (herr : (reducers.map (fun p => p.1)).any (fun n =>
        ((lookupKV n (combineReducersRun reducers (preprocessorLoop preprocs event0))).bind
          ROut.errVal).isSome) = true) :
    reducerErrorP preprocs reducers metaStored event0 := by
  unfold reducerErrorP
  have hout : esdbReducer preprocs reducers metaStored event0 =
      { preprocessorLoop preprocs event0 with
        result := some (match lookupKV "metadata"
            (combineReducersRun reducers (preprocessorLoop preprocs event0)) with
          | some m => [("metadata", m)]
          | none => []),
        error := some ((reducers.map (fun p => p.1)).filterMap (fun n =>
          ((lookupKV n (combineReducersRun reducers (preprocessorLoop preprocs event0))).bind
            ROut.errVal).map (fun e => (n, e)))) } := by
    unfold esdbReducer
    simp [hpre, herr]
  refine ⟨?_, ?_, ?_, ?_⟩
  · rw [hout]
    rfl
  · intro n
    rw [hout]
    simp only [Option.getD_some]
    rw [lookupKV_filterMap_keys _ _ hnd n]
    by_cases hmem : n ∈ reducers.map (fun p => p.1)
    · simp [hmem]
    · have hkeys : (combineReducersRun reducers (preprocessorLoop preprocs event0)).map
          Prod.fst = reducers.map Prod.fst := keys_combine _ _
      have hnone : lookupKV n
          (combineReducersRun reducers (preprocessorLoop preprocs event0)) = none := by
        apply lookupKV_eq_none_of_not_mem
        rw [hkeys]
        exact hmem
      simp [hmem, hnone]
  · intro q hq
    rw [hout] at hq
    simp only [Option.getD_some] at hq
    rcases hm : lookupKV "metadata"
        (combineReducersRun reducers (preprocessorLoop preprocs event0)) with _ | m
    · rw [hm] at hq
      simp at hq
    · rw [hm] at hq
      simp at hq
      simp [hq]
  · intro m hm
    rw [hout]
    simp [hm]

/-- Witness for C5: model a errors while the metadata reducer advances
to version 1. -/
theorem C5_reducer_error_collection_witness :
    (redC5.map (fun p => p.1)).Nodup ∧
      (preprocessorLoop [] eC5).error = none ∧
      (redC5.map (fun p => p.1)).any (fun n =>
        ((lookupKV n (combineReducersRun redC5 (preprocessorLoop [] eC5))).bind
          ROut.errVal).isSome) = true ∧
      reducerErrorP [] redC5 none eC5 :=
  ⟨by decide, rfl, rfl, C5_reducer_error_collection [] redC5 none eC5 (by decide) rfl rfl⟩
